import Mathlib

/-!
# taskTimeTracker — verification of the invoice / timesheet workflow

A shallow embedding of the backend of the taskTimeTracker repository
(Express + PostgreSQL, TypeScript).  The relational state is a record of
lists of rows; each model method (`InvoiceModel.create`,
`TimesheetModel.updateStatus`, …) becomes a pure function from state to
state, translated statement by statement from the SQL in
`src/backend/src/models`.  Controllers from
`src/backend/src/controllers` become functions that also return the HTTP
status code they answer.  Monetary values are exact rationals; dates are
integers (timestamps); the current date is passed explicitly where the
code calls `new Date()`.
-/

namespace TaskTimeTracker

/-! ## Data model (schema rows, as the TypeScript interfaces declare them) -/

inductive Role
  | admin
  | user
  | client
deriving DecidableEq, Repr

structure User where
  id : Nat
  role : Role
deriving DecidableEq, Repr

/-- Status values of a time entry (`time-entry.model.ts`). -/
inductive EntryStatus
  | draft
  | submitted
  | approved
  | rejected
  | billed
deriving DecidableEq, Repr

/-- Status values of a timesheet (`timesheet.model.ts`). -/
inductive TsStatus
  | draft
  | submitted
  | approved
  | rejected
deriving DecidableEq, Repr

/-- Status values of an invoice (`invoice.model.ts`). -/
inductive InvStatus
  | draft
  | sent
  | paid
  | overdue
  | cancelled
deriving DecidableEq, Repr

/-- A row of `time_entries`. -/
structure TimeEntry where
  id : Nat
  user_id : Nat
  task_id : Nat
  start_time : Int
  end_time : Option Int
  duration_minutes : Option Int
  description : Option String
  is_billable : Bool
  status : EntryStatus
  timesheet_id : Option Nat
deriving DecidableEq, Repr

/-- A row of `tasks` (the fields the claims need). -/
structure Task where
  id : Nat
  project_id : Nat
deriving DecidableEq, Repr

/-- A row of `projects` (the fields the claims need). -/
structure Project where
  id : Nat
  client_id : Nat
  hourly_rate : ℚ
deriving DecidableEq, Repr

/-- A row of `timesheets`. -/
structure Timesheet where
  id : Nat
  user_id : Nat
  start_date : Int
  end_date : Int
  status : TsStatus
  notes : Option String
  approved_by : Option Nat
  approved_at : Option Int
deriving DecidableEq, Repr

/-- A row of `invoices`; `created_year`/`created_month` embed the
`created_at` components that `EXTRACT(YEAR|MONTH FROM created_at)` reads. -/
structure Invoice where
  id : Nat
  invoice_number : String
  client_id : Nat
  issue_date : Int
  due_date : Int
  status : InvStatus
  subtotal : ℚ
  tax_rate : ℚ
  tax_amount : ℚ
  total : ℚ
  notes : Option String
  created_year : Nat
  created_month : Nat
deriving DecidableEq, Repr

/-- A row of `invoice_items`. -/
structure InvoiceItem where
  invoice_id : Nat
  description : String
  quantity : ℚ
  unit_price : ℚ
  amount : ℚ
  time_entry_ids : List Nat
deriving DecidableEq, Repr

/-- The database state. -/
structure DB where
  time_entries : List TimeEntry
  timesheets : List Timesheet
  tasks : List Task
  projects : List Project
  invoices : List Invoice
  invoice_items : List InvoiceItem
  next_invoice_id : Nat
deriving DecidableEq, Repr

def emptyDB : DB :=
  { time_entries := [], timesheets := [], tasks := [], projects := []
  , invoices := [], invoice_items := [], next_invoice_id := 0 }

/-! ## InvoiceModel (`invoice.model.ts`) -/

/-- One element of `InvoiceInput.items`. -/
structure InvoiceItemInput where
  description : String
  quantity : ℚ
  unitPrice : ℚ
  timeEntryIds : List Nat
deriving DecidableEq, Repr

/-- Shape of `InvoiceInput` in `invoice.model.ts`. -/
structure InvoiceInput where
  clientId : Nat
  issueDate : Int
  dueDate : Int
  taxRate : ℚ
  notes : Option String
  items : List InvoiceItemInput
deriving DecidableEq, Repr

/-- Model of the JavaScript `padStart(width)` call with a zero pad. -/
def padZeros (width : Nat) (s : String) : String :=
  String.mk (List.replicate (width - s.length) '0') ++ s

/-- The `COUNT(*)` of invoices whose `created_at` falls in the given month
(`generateInvoiceNumber`, lines 373-378). -/
def countInvoicesInMonth (db : DB) (year month : Nat) : Nat :=
  (db.invoices.filter (fun i => i.created_year == year && i.created_month == month)).length

/-- Model of `InvoiceModel.generateInvoiceNumber`; `year`/`month` are the components
of `new Date()` at the call. -/
def generateInvoiceNumber (db : DB) (year month : Nat) : String :=
  let count := countInvoicesInMonth db year month + 1
  "INV-" ++ toString year ++ padZeros 2 (toString month) ++ "-" ++ padZeros 4 (toString count)

/-- Amount of one line item: `item.quantity * item.unitPrice`. -/
def itemAmount (it : InvoiceItemInput) : ℚ :=
  it.quantity * it.unitPrice

/-- Model of `items.reduce((sum, item) => sum + item.quantity * item.unitPrice, 0)`. -/
def computeSubtotal (items : List InvoiceItemInput) : ℚ :=
  items.foldl (fun sum it => sum + it.quantity * it.unitPrice) 0

/-- The `invoice_items` row the `INSERT INTO invoice_items` statement of
`InvoiceModel.create` writes for one input item. -/
def mkInvoiceItem (invoiceId : Nat) (it : InvoiceItemInput) : InvoiceItem :=
  { invoice_id := invoiceId
  , description := it.description
  , quantity := it.quantity
  , unit_price := it.unitPrice
  , amount := it.quantity * it.unitPrice
  , time_entry_ids := it.timeEntryIds }

/-- Model of `UPDATE time_entries SET status = billed WHERE id = ANY($1)`. -/
def markBilled (entries : List TimeEntry) (ids : List Nat) : List TimeEntry :=
  entries.map (fun e => if e.id ∈ ids then { e with status := EntryStatus.billed } else e)

/-- The `invoices` row `InvoiceModel.create` inserts; the id is the value
the serial column assigns. -/
def mkInvoice (db : DB) (inp : InvoiceInput) (year month : Nat) : Invoice :=
  let subtotal := computeSubtotal inp.items
  let taxAmount := subtotal * (inp.taxRate / 100)
  { id := db.next_invoice_id
  , invoice_number := generateInvoiceNumber db year month
  , client_id := inp.clientId
  , issue_date := inp.issueDate
  , due_date := inp.dueDate
  , status := InvStatus.draft
  , subtotal := subtotal
  , tax_rate := inp.taxRate
  , tax_amount := taxAmount
  , total := subtotal + taxAmount
  , notes := inp.notes
  , created_year := year
  , created_month := month }

/-- One SQL statement of the transaction inside `InvoiceModel.create`. -/
inductive TxStmt
  | insertInvoice (inv : Invoice)
  | insertItem (it : InvoiceItem)
  | markEntriesBilled (ids : List Nat)
deriving DecidableEq, Repr

/-- Effect of one statement on the database. -/
def applyStmt (db : DB) : TxStmt → DB
  | TxStmt.insertInvoice inv =>
      { db with invoices := db.invoices ++ [inv], next_invoice_id := db.next_invoice_id + 1 }
  | TxStmt.insertItem it =>
      { db with invoice_items := db.invoice_items ++ [it] }
  | TxStmt.markEntriesBilled ids =>
      { db with time_entries := markBilled db.time_entries ids }

/-- The statements the `for (const item of items)` loop issues: per item an
`INSERT INTO invoice_items` and, when `item.timeEntryIds` is non-empty, the
`UPDATE time_entries SET status = billed`. -/
def itemStmts (invoiceId : Nat) : List InvoiceItemInput → List TxStmt
  | [] => []
  | it :: rest =>
      TxStmt.insertItem (mkInvoiceItem invoiceId it) ::
        ((if it.timeEntryIds.isEmpty then [] else [TxStmt.markEntriesBilled it.timeEntryIds]) ++
          itemStmts invoiceId rest)

/-- Every statement between `BEGIN` and `COMMIT` in `InvoiceModel.create`. -/
def createStmts (db : DB) (inp : InvoiceInput) (year month : Nat) : List TxStmt :=
  TxStmt.insertInvoice (mkInvoice db inp year month) :: itemStmts db.next_invoice_id inp.items

def applyStmts (db : DB) : List TxStmt → DB
  | [] => db
  | s :: rest => applyStmts (applyStmt db s) rest

namespace InvoiceModel

/-- Model of `InvoiceModel.create` when every statement succeeds: the returned invoice
and the committed state. -/
def create (db : DB) (inp : InvoiceInput) (year month : Nat) : Invoice × DB :=
  (mkInvoice db inp year month, applyStmts db (createStmts db inp year month))

/-- Run the transaction's statements on one connection; `fails` is the
environment's choice of which statement raises (constraint violation,
connection loss, …).  A raise aborts the run. -/
def runTx (fails : TxStmt → Bool) (db : DB) : List TxStmt → Option DB
  | [] => some db
  | s :: rest => if fails s then none else runTx fails (applyStmt db s) rest

/-- Model of `InvoiceModel.create` with the failure environment made explicit: on a
raise the `catch` issues `ROLLBACK`, so the call reports the error with the
pre-transaction state intact. -/
def createTx (fails : TxStmt → Bool) (db : DB) (inp : InvoiceInput) (year month : Nat) :
    Except DB (Invoice × DB) :=
  match runTx fails db (createStmts db inp year month) with
  | some db2 => Except.ok (mkInvoice db inp year month, db2)
  | none => Except.error db

end InvoiceModel

/-! ## Basic lemmas about the invoice transaction -/

theorem applyStmts_append (db : DB) (l1 l2 : List TxStmt) :
    applyStmts db (l1 ++ l2) = applyStmts (applyStmts db l1) l2 := by
  induction l1 generalizing db with
  | nil => rfl
  | cons s rest ih => simp [applyStmts, ih]

theorem foldl_add_eq_sum (items : List InvoiceItemInput) (a : ℚ) :
    items.foldl (fun sum it => sum + it.quantity * it.unitPrice) a
      = a + (items.map itemAmount).sum := by
  induction items generalizing a with
  | nil => simp
  | cons it rest ih => simp [ih, itemAmount]; ring

theorem computeSubtotal_eq_sum (items : List InvoiceItemInput) :
    computeSubtotal items = (items.map itemAmount).sum := by
  simp [computeSubtotal, foldl_add_eq_sum]

/-- The loop statements of `itemStmts` touch only `invoice_items` and `time_entries`. -/
theorem applyStmts_itemStmts_invoices (db : DB) (invId : Nat) (items : List InvoiceItemInput) :
    (applyStmts db (itemStmts invId items)).invoices = db.invoices ∧
    (applyStmts db (itemStmts invId items)).next_invoice_id = db.next_invoice_id ∧
    (applyStmts db (itemStmts invId items)).timesheets = db.timesheets := by
  induction items generalizing db with
  | nil => exact ⟨rfl, rfl, rfl⟩
  | cons it rest ih =>
      by_cases h : it.timeEntryIds.isEmpty <;>
        simp [itemStmts, h, applyStmts, applyStmt, ih]

/-- The items the loop inserts, in order. -/
theorem applyStmts_itemStmts_items (db : DB) (invId : Nat) (items : List InvoiceItemInput) :
    (applyStmts db (itemStmts invId items)).invoice_items
      = db.invoice_items ++ items.map (mkInvoiceItem invId) := by
  induction items generalizing db with
  | nil => simp [itemStmts, applyStmts]
  | cons it rest ih =>
      by_cases h : it.timeEntryIds.isEmpty <;>
        simp [itemStmts, h, applyStmts, applyStmt, ih]

/-- What `InvoiceModel.create` commits: the invoice row goes at the end of
`invoices`, the item rows follow the input order. -/
theorem create_state (db : DB) (inp : InvoiceInput) (year month : Nat) :
    (InvoiceModel.create db inp year month).2.invoices
        = db.invoices ++ [mkInvoice db inp year month] ∧
    (InvoiceModel.create db inp year month).2.invoice_items
        = db.invoice_items ++ inp.items.map (mkInvoiceItem db.next_invoice_id) := by
  constructor
  · simp [InvoiceModel.create, createStmts, applyStmts, applyStmt,
      (applyStmts_itemStmts_invoices _ _ _).1]
  · simp [InvoiceModel.create, createStmts, applyStmts, applyStmt,
      applyStmts_itemStmts_items]

/-- **C1.** For every invoice created by `InvoiceModel.create`: the stored
subtotal is the sum over the input items of quantity times unit price; every
invoice item stored for the invoice has `amount = quantity * unit_price`;
the stored `tax_amount` is `subtotal * taxRate / 100`; the stored `total` is
`subtotal + tax_amount`; and hence the invoice's total equals the sum of its
items' amounts plus the tax amount. -/
theorem claim1_invoice_totals (db : DB) (inp : InvoiceInput) (year month : Nat) :
    (InvoiceModel.create db inp year month).1.subtotal = (inp.items.map itemAmount).sum ∧
    (InvoiceModel.create db inp year month).2.invoice_items
        = db.invoice_items
            ++ inp.items.map (mkInvoiceItem (InvoiceModel.create db inp year month).1.id) ∧
    (∀ it ∈ inp.items.map (mkInvoiceItem (InvoiceModel.create db inp year month).1.id),
        it.amount = it.quantity * it.unit_price) ∧
    (InvoiceModel.create db inp year month).1.tax_amount
        = (InvoiceModel.create db inp year month).1.subtotal * (inp.taxRate / 100) ∧
    (InvoiceModel.create db inp year month).1.total
        = (InvoiceModel.create db inp year month).1.subtotal
            + (InvoiceModel.create db inp year month).1.tax_amount ∧
    (InvoiceModel.create db inp year month).1.total
        = ((inp.items.map (mkInvoiceItem (InvoiceModel.create db inp year month).1.id)).map
            InvoiceItem.amount).sum
            + (InvoiceModel.create db inp year month).1.tax_amount := by
  have hid : (InvoiceModel.create db inp year month).1.id = db.next_invoice_id := rfl
  have hamounts :
      (inp.items.map (mkInvoiceItem db.next_invoice_id)).map InvoiceItem.amount
        = inp.items.map itemAmount := by
    simp [mkInvoiceItem, itemAmount]
  refine ⟨?_, ?_, ?_, rfl, rfl, ?_⟩
  · simp [InvoiceModel.create, mkInvoice, computeSubtotal_eq_sum]
  · rw [hid]; exact (create_state db inp year month).2
  · intro it hit
    simp only [List.mem_map] at hit
    obtain ⟨src, _, rfl⟩ := hit
    rfl
  · rw [hid, hamounts]
    show computeSubtotal inp.items + computeSubtotal inp.items * (inp.taxRate / 100)
        = (inp.items.map itemAmount).sum + computeSubtotal inp.items * (inp.taxRate / 100)
    rw [computeSubtotal_eq_sum]

/-- **C6.** Invoices are numbered sequentially within a month: the created
invoice's number is the string INV, the year, the zero-padded month, and the
zero-padded value of one plus the count of invoices already created in that
month; a successful create raises that count by exactly one, so consecutive
creates in one month get consecutive sequence values; the first invoice of a
month ends in 0001. -/
theorem claim6_sequential_numbering (db : DB) (inp : InvoiceInput) (year month : Nat) :
    (InvoiceModel.create db inp year month).1.invoice_number
        = "INV-" ++ toString year ++ padZeros 2 (toString month) ++ "-"
            ++ padZeros 4 (toString (countInvoicesInMonth db year month + 1)) ∧
    countInvoicesInMonth (InvoiceModel.create db inp year month).2 year month
        = countInvoicesInMonth db year month + 1 ∧
    (countInvoicesInMonth db year month = 0 →
      (InvoiceModel.create db inp year month).1.invoice_number
          = "INV-" ++ toString year ++ padZeros 2 (toString month) ++ "-" ++ "0001") := by
  have hnum : (InvoiceModel.create db inp year month).1.invoice_number
      = "INV-" ++ toString year ++ padZeros 2 (toString month) ++ "-"
          ++ padZeros 4 (toString (countInvoicesInMonth db year month + 1)) := rfl
  refine ⟨hnum, ?_, ?_⟩
  · have hst := (create_state db inp year month).1
    simp [countInvoicesInMonth, hst, mkInvoice]
  · intro h0
    rw [hnum, h0]
    rfl

/-- Witness for the hypothesis-bearing conjunct of C6 evaluated concretely:
with no prior invoices the first number of 2024-03 ends in 0001. -/
theorem claim6_witness :
    (InvoiceModel.create emptyDB
        { clientId := 1, issueDate := 0, dueDate := 30, taxRate := 10, notes := none
        , items := [{ description := "work", quantity := 2, unitPrice := 50
                    , timeEntryIds := [7] }] } 2024 3).1.invoice_number
      = "INV-" ++ toString 2024 ++ padZeros 2 (toString 3) ++ "-" ++ "0001" :=
  (claim6_sequential_numbering emptyDB
      { clientId := 1, issueDate := 0, dueDate := 30, taxRate := 10, notes := none
      , items := [{ description := "work", quantity := 2, unitPrice := 50
                  , timeEntryIds := [7] }] } 2024 3).2.2 (by decide)

/-! ## C5: the create transaction is atomic -/

theorem runTx_ok_eq (fails : TxStmt → Bool) (stmts : List TxStmt) (db db2 : DB)
    (h : InvoiceModel.runTx fails db stmts = some db2) : db2 = applyStmts db stmts := by
  induction stmts generalizing db with
  | nil =>
      simp [InvoiceModel.runTx] at h
      simp [applyStmts, h]
  | cons s rest ih =>
      by_cases hf : fails s
      · simp [InvoiceModel.runTx, hf] at h
      · simp [InvoiceModel.runTx, hf] at h
        exact ih (applyStmt db s) h

theorem mem_invoices_applyStmt {inv : Invoice} {db : DB} (s : TxStmt)
    (h : inv ∈ db.invoices) : inv ∈ (applyStmt db s).invoices := by
  cases s <;> simp [applyStmt, h]

theorem mem_invoices_applyStmts {inv : Invoice} (stmts : List TxStmt) {db : DB}
    (h : inv ∈ db.invoices) : inv ∈ (applyStmts db stmts).invoices := by
  induction stmts generalizing db with
  | nil => exact h
  | cons s rest ih => exact ih (mem_invoices_applyStmt s h)

theorem insertInvoice_effect {inv : Invoice} (stmts : List TxStmt) (db : DB)
    (h : TxStmt.insertInvoice inv ∈ stmts) : inv ∈ (applyStmts db stmts).invoices := by
  induction stmts generalizing db with
  | nil => cases h
  | cons s rest ih =>
      rcases List.mem_cons.mp h with heq | hmem
      · subst heq
        exact mem_invoices_applyStmts rest (by simp [applyStmt])
      · exact ih (applyStmt db s) hmem

theorem mem_items_applyStmt {it : InvoiceItem} {db : DB} (s : TxStmt)
    (h : it ∈ db.invoice_items) : it ∈ (applyStmt db s).invoice_items := by
  cases s <;> simp [applyStmt, h]

theorem mem_items_applyStmts {it : InvoiceItem} (stmts : List TxStmt) {db : DB}
    (h : it ∈ db.invoice_items) : it ∈ (applyStmts db stmts).invoice_items := by
  induction stmts generalizing db with
  | nil => exact h
  | cons s rest ih => exact ih (mem_items_applyStmt s h)

theorem insertItem_effect {it : InvoiceItem} (stmts : List TxStmt) (db : DB)
    (h : TxStmt.insertItem it ∈ stmts) : it ∈ (applyStmts db stmts).invoice_items := by
  induction stmts generalizing db with
  | nil => cases h
  | cons s rest ih =>
      rcases List.mem_cons.mp h with heq | hmem
      · subst heq
        exact mem_items_applyStmts rest (by simp [applyStmt])
      · exact ih (applyStmt db s) hmem

/-- In `db`, every time entry whose id the list holds is billed. -/
def billedFor (db : DB) (ids : List Nat) : Prop :=
  ∀ e ∈ db.time_entries, e.id ∈ ids → e.status = EntryStatus.billed

theorem billedFor_applyStmt {db : DB} {ids : List Nat} (s : TxStmt)
    (h : billedFor db ids) : billedFor (applyStmt db s) ids := by
  cases s with
  | insertInvoice inv => exact h
  | insertItem it => exact h
  | markEntriesBilled ids2 =>
      intro e he hid
      simp only [applyStmt, markBilled, List.mem_map] at he
      obtain ⟨e0, he0, heq⟩ := he
      by_cases h2 : e0.id ∈ ids2
      · simp only [if_pos h2] at heq
        exact heq ▸ rfl
      · simp only [if_neg h2] at heq
        exact h e (heq ▸ he0) hid

theorem billedFor_applyStmts {db : DB} {ids : List Nat} (stmts : List TxStmt)
    (h : billedFor db ids) : billedFor (applyStmts db stmts) ids := by
  induction stmts generalizing db with
  | nil => exact h
  | cons s rest ih => exact ih (billedFor_applyStmt s h)

theorem billedFor_mark (db : DB) (ids : List Nat) :
    billedFor (applyStmt db (TxStmt.markEntriesBilled ids)) ids := by
  intro e he hid
  simp only [applyStmt, markBilled, List.mem_map] at he
  obtain ⟨e0, he0, heq⟩ := he
  by_cases h2 : e0.id ∈ ids
  · simp only [if_pos h2] at heq
    exact heq ▸ rfl
  · simp only [if_neg h2] at heq
    exact absurd (heq ▸ hid) h2

theorem markEntriesBilled_effect {ids : List Nat} (stmts : List TxStmt) (db : DB)
    (h : TxStmt.markEntriesBilled ids ∈ stmts) : billedFor (applyStmts db stmts) ids := by
  induction stmts generalizing db with
  | nil => cases h
  | cons s rest ih =>
      rcases List.mem_cons.mp h with heq | hmem
      · subst heq
        exact billedFor_applyStmts rest (billedFor_mark db ids)
      · exact ih (applyStmt db s) hmem

theorem insertItem_mem_itemStmts (invId : Nat) {items : List InvoiceItemInput}
    {it : InvoiceItemInput} (h : it ∈ items) :
    TxStmt.insertItem (mkInvoiceItem invId it) ∈ itemStmts invId items := by
  induction items with
  | nil => cases h
  | cons a rest ih =>
      rcases List.mem_cons.mp h with heq | hmem
      · subst heq; simp [itemStmts]
      · by_cases ha : a.timeEntryIds.isEmpty <;>
          simp only [itemStmts, ha, if_pos, if_neg, List.nil_append, List.mem_cons,
            List.mem_append, List.mem_singleton] <;> tauto

theorem mark_mem_itemStmts (invId : Nat) {items : List InvoiceItemInput}
    {it : InvoiceItemInput} (h : it ∈ items) (hne : it.timeEntryIds.isEmpty = false) :
    TxStmt.markEntriesBilled it.timeEntryIds ∈ itemStmts invId items := by
  induction items with
  | nil => cases h
  | cons a rest ih =>
      rcases List.mem_cons.mp h with heq | hmem
      · subst heq; simp [itemStmts, hne]
      · by_cases ha : a.timeEntryIds.isEmpty <;>
          simp only [itemStmts, ha, if_pos, if_neg, List.nil_append, List.mem_cons,
            List.mem_append, List.mem_singleton] <;> tauto

/-- What one call of `InvoiceModel.create` guarantees under an arbitrary
failure environment: on an error the reported state is exactly the
pre-transaction state (the `catch` rolled the transaction back); on success
the committed state holds the invoice row, the item row of every input
item, and every referenced time entry with status billed. -/
def createTxOutcome (fails : TxStmt → Bool) (db : DB) (inp : InvoiceInput)
    (year month : Nat) : Prop :=
  match InvoiceModel.createTx fails db inp year month with
  | Except.error db2 => db2 = db
  | Except.ok (inv, db2) =>
      inv ∈ db2.invoices ∧
      (∀ it ∈ inp.items, mkInvoiceItem db.next_invoice_id it ∈ db2.invoice_items) ∧
      (∀ it ∈ inp.items, ∀ e ∈ db2.time_entries,
          e.id ∈ it.timeEntryIds → e.status = EntryStatus.billed)

/-- **C5.** `InvoiceModel.create` is atomic: if any statement inside the
transaction fails, the rolled-back state equals the state before the call
(no invoice, no items, no billed marks); otherwise the invoice row, all of
its item rows and the billed status of every referenced time entry are
committed together. -/
theorem claim5_create_atomic (fails : TxStmt → Bool) (db : DB) (inp : InvoiceInput)
    (year month : Nat) : createTxOutcome fails db inp year month := by
  unfold createTxOutcome InvoiceModel.createTx
  cases hr : InvoiceModel.runTx fails db (createStmts db inp year month) with
  | none => rfl
  | some db2 =>
      have hdb2 : db2 = applyStmts db (createStmts db inp year month) :=
        runTx_ok_eq fails _ db db2 hr
      subst hdb2
      refine ⟨?_, ?_, ?_⟩
      · exact insertInvoice_effect _ db (by simp [createStmts])
      · intro it hit
        refine insertItem_effect _ db ?_
        simp only [createStmts, List.mem_cons]
        exact Or.inr (insertItem_mem_itemStmts db.next_invoice_id hit)
      · intro it hit e he hid
        by_cases hne : it.timeEntryIds.isEmpty
        · rw [List.isEmpty_iff] at hne
          rw [hne] at hid
          cases hid
        · refine markEntriesBilled_effect _ db ?_ e he hid
          simp only [createStmts, List.mem_cons]
          exact Or.inr (mark_mem_itemStmts db.next_invoice_id hit (by simpa using hne))

/-! ## C2: time entries referenced by at most one invoice item -/

/-- The invoice items whose `time_entry_ids` hold `tid` (the subquery of
`getUnbilledTimeEntries` unnests exactly these). -/
def entriesReferencing (db : DB) (tid : Nat) : List InvoiceItem :=
  db.invoice_items.filter (fun it => decide (tid ∈ it.time_entry_ids))

/-- Each time entry id occurs in the `time_entry_ids` of at most one
invoice item. -/
def uniqueItemRefs (db : DB) : Prop :=
  ∀ tid : Nat, (entriesReferencing db tid).length ≤ 1

/-- No time entry id is referenced by invoice items of two different
invoices. -/
def noCrossInvoiceRefs (db : DB) : Prop :=
  ∀ tid : Nat, ∀ it1 ∈ db.invoice_items, ∀ it2 ∈ db.invoice_items,
    tid ∈ it1.time_entry_ids → tid ∈ it2.time_entry_ids →
      it1.invoice_id = it2.invoice_id

/-- States reachable by `InvoiceModel.create` calls alone. -/
inductive ReachableByCreate : DB → Prop
  | init : ReachableByCreate emptyDB
  | step (db : DB) (inp : InvoiceInput) (year month : Nat) :
      ReachableByCreate db → ReachableByCreate (InvoiceModel.create db inp year month).2

def c2Input : InvoiceInput :=
  { clientId := 1, issueDate := 0, dueDate := 30, taxRate := 0, notes := none
  , items := [{ description := "consulting", quantity := 1, unitPrice := 100
              , timeEntryIds := [1] }] }

/-- Two `create` calls, both billing time entry 1. -/
def c2State : DB :=
  (InvoiceModel.create (InvoiceModel.create emptyDB c2Input 2024 1).2 c2Input 2024 1).2

/-- **C2, counterexample.** `InvoiceModel.create` performs no check on the
submitted `timeEntryIds`: after two create calls that both reference time
entry 1, the reachable state has two invoice items — belonging to two
different invoices — referencing the same time entry. -/
theorem claim2_counterexample :
    ReachableByCreate c2State ∧ ¬ uniqueItemRefs c2State ∧ ¬ noCrossInvoiceRefs c2State := by
  refine ⟨ReachableByCreate.step _ c2Input 2024 1
      (ReachableByCreate.step _ c2Input 2024 1 ReachableByCreate.init), ?_, ?_⟩
  · intro h
    have h1 := h 1
    revert h1
    decide
  · intro h
    have hex : ∃ it1 ∈ c2State.invoice_items, ∃ it2 ∈ c2State.invoice_items,
        1 ∈ it1.time_entry_ids ∧ 1 ∈ it2.time_entry_ids ∧
          it1.invoice_id ≠ it2.invoice_id := by decide
    obtain ⟨it1, h1, it2, h2, ha, hb, hne⟩ := hex
    exact hne (h 1 it1 h1 it2 h2 ha hb)

/-! The invariant does hold when every call bills only fresh entries — the
ids the caller gets from `getUnbilledTimeEntries`, which excludes every id
already present in some item's `time_entry_ids`. -/

/-- All time entry ids one input references, items concatenated. -/
def refsOfItems : List InvoiceItemInput → List Nat
  | [] => []
  | it :: rest => it.timeEntryIds ++ refsOfItems rest

/-- The call references no id twice and none already referenced in `db`
(what a caller billing only unbilled entries satisfies). -/
def FreshCall (db : DB) (inp : InvoiceInput) : Prop :=
  (refsOfItems inp.items).Nodup ∧
  ∀ tid ∈ refsOfItems inp.items, entriesReferencing db tid = []

/-- States reachable by `InvoiceModel.create` calls that each reference
only fresh time entries. -/
inductive ReachableFresh : DB → Prop
  | init : ReachableFresh emptyDB
  | step (db : DB) (inp : InvoiceInput) (year month : Nat) :
      ReachableFresh db → FreshCall db inp →
      ReachableFresh (InvoiceModel.create db inp year month).2

theorem mem_refsOfItems {tid : Nat} {items : List InvoiceItemInput} :
    tid ∈ refsOfItems items ↔ ∃ it ∈ items, tid ∈ it.timeEntryIds := by
  induction items with
  | nil => simp [refsOfItems]
  | cons a rest ih => simp [refsOfItems, ih]

theorem length_filter_new_le_one {tid : Nat} (invId : Nat) (items : List InvoiceItemInput)
    (hnd : (refsOfItems items).Nodup) :
    ((items.map (mkInvoiceItem invId)).filter
        (fun it => decide (tid ∈ it.time_entry_ids))).length ≤ 1 := by
  induction items with
  | nil => simp
  | cons a rest ih =>
      have hsplit := List.nodup_append.mp (by simpa [refsOfItems] using hnd)
      by_cases h : tid ∈ a.timeEntryIds
      · have hrest : ∀ it ∈ rest.map (mkInvoiceItem invId),
            ¬ (tid ∈ it.time_entry_ids) := by
          intro it hit htid
          simp only [List.mem_map] at hit
          obtain ⟨src, hsrc, rfl⟩ := hit
          exact hsplit.2.2 h (mem_refsOfItems.mpr ⟨src, hsrc, htid⟩)
        have hnil : (rest.map (mkInvoiceItem invId)).filter
            (fun it => decide (tid ∈ it.time_entry_ids)) = [] := by
          rw [List.filter_eq_nil_iff]
          intro it hit
          simpa using hrest it hit
        simp [mkInvoiceItem, h, hnil]
      · have : tid ∈ (mkInvoiceItem invId a).time_entry_ids ↔ tid ∈ a.timeEntryIds :=
          Iff.rfl
        simp only [List.map_cons, List.filter_cons]
        rw [if_neg (by simpa using h)]
        exact ih hsplit.2.1

theorem uniqueItemRefs_create (db : DB) (inp : InvoiceInput) (year month : Nat)
    (hu : uniqueItemRefs db) (hf : FreshCall db inp) :
    uniqueItemRefs (InvoiceModel.create db inp year month).2 := by
  intro tid
  have hitems := (create_state db inp year month).2
  unfold entriesReferencing
  rw [hitems, List.filter_append, List.length_append]
  by_cases h : tid ∈ refsOfItems inp.items
  · have hold := hf.2 tid h
    unfold entriesReferencing at hold
    rw [hold]
    simpa using length_filter_new_le_one db.next_invoice_id inp.items hf.1
  · have hnew : (inp.items.map (mkInvoiceItem db.next_invoice_id)).filter
        (fun it => decide (tid ∈ it.time_entry_ids)) = [] := by
      rw [List.filter_eq_nil_iff]
      intro it hit
      simp only [List.mem_map] at hit
      obtain ⟨src, hsrc, rfl⟩ := hit
      simp only [decide_eq_true_eq]
      exact fun htid => h (mem_refsOfItems.mpr ⟨src, hsrc, htid⟩)
    rw [hnew]
    simpa using hu tid

theorem eq_of_mem_length_le_one {α : Type} {l : List α} {a b : α}
    (hl : l.length ≤ 1) (ha : a ∈ l) (hb : b ∈ l) : a = b := by
  match l with
  | [] => cases ha
  | [x] =>
      have h1 : a = x := by simpa using ha
      have h2 : b = x := by simpa using hb
      rw [h1, h2]
  | x :: y :: rest => simp at hl

theorem noCross_of_unique (db : DB) (hu : uniqueItemRefs db) : noCrossInvoiceRefs db := by
  intro tid it1 h1 it2 h2 ha hb
  have m1 : it1 ∈ entriesReferencing db tid := by
    simp [entriesReferencing, List.mem_filter, h1, ha]
  have m2 : it2 ∈ entriesReferencing db tid := by
    simp [entriesReferencing, List.mem_filter, h2, hb]
  rw [eq_of_mem_length_le_one (hu tid) m1 m2]

/-- **C2, amended.** `InvoiceModel.create` itself never checks the submitted
time entry ids, so the at-most-one-item invariant is *not* enforced by the
invoice operations (see the counterexample); it does hold for every
sequence of create calls in which each call references only ids that are
fresh — not referenced by any existing invoice item and not repeated inside
the call, as the ids served by `getUnbilledTimeEntries` are. -/
theorem claim2_fresh_calls_unique (db : DB) (h : ReachableFresh db) :
    uniqueItemRefs db ∧ noCrossInvoiceRefs db := by
  induction h with
  | init =>
      have hu : uniqueItemRefs emptyDB := by
        intro tid
        simp [entriesReferencing, emptyDB]
      exact ⟨hu, noCross_of_unique _ hu⟩
  | step db inp year month hr hf ih =>
      have hu := uniqueItemRefs_create db inp year month ih.1 hf
      exact ⟨hu, noCross_of_unique _ hu⟩

/-- Witness: one fresh create call from the empty state keeps the
invariant. -/
theorem claim2_fresh_calls_unique_witness :
    uniqueItemRefs (InvoiceModel.create emptyDB c2Input 2024 1).2 ∧
    noCrossInvoiceRefs (InvoiceModel.create emptyDB c2Input 2024 1).2 :=
  claim2_fresh_calls_unique _
    (ReachableFresh.step emptyDB c2Input 2024 1 ReachableFresh.init
      ⟨by decide, by decide⟩)

/-! ## TimesheetModel (`timesheet.model.ts`) -/

/-- Model of `SELECT ... FROM timesheets t ... WHERE t.id = $1` (the row part of
`TimesheetModel.findById`). -/
def findTimesheet (db : DB) (id : Nat) : Option Timesheet :=
  db.timesheets.find? (fun t => t.id == id)

namespace TimesheetModel

/-- Model of `TimesheetModel.updateStatus`: update the timesheet row; when the new
status is approved or rejected, cascade it to every time entry whose
`timesheet_id` is this timesheet; a missing row means zero updated rows,
`ROLLBACK`, and a null result.  `now` is `CURRENT_TIMESTAMP`. -/
def updateStatus (db : DB) (id : Nat) (status : TsStatus) (approvedById : Nat)
    (notes : Option String) (now : Int) : Option Timesheet × DB :=
  match findTimesheet db id with
  | none => (none, db)
  | some t =>
      let t2 : Timesheet :=
        { t with
          status := status
          notes := match notes with | some n => some n | none => t.notes
          approved_by := some approvedById
          approved_at := if status = TsStatus.approved then some now else t.approved_at }
      let timesheets2 := db.timesheets.map (fun u => if u.id = id then t2 else u)
      let entries2 :=
        if status = TsStatus.approved ∨ status = TsStatus.rejected then
          db.time_entries.map (fun e =>
            if e.timesheet_id = some id then
              { e with status := if status = TsStatus.approved then EntryStatus.approved
                                 else EntryStatus.rejected }
            else e)
        else db.time_entries
      (some t2, { db with timesheets := timesheets2, time_entries := entries2 })

/-- Model of `TimesheetModel.addTimeEntries`: attach the listed entries that are not
yet on any timesheet (`WHERE id = ANY($2) AND timesheet_id IS NULL`),
marking them submitted; the Boolean is `rowCount > 0`. -/
def addTimeEntries (db : DB) (timesheetId : Nat) (ids : List Nat) : Bool × DB :=
  if ids.isEmpty then (true, db)
  else
    let matched := db.time_entries.filter
      (fun e => decide (e.id ∈ ids ∧ e.timesheet_id = none))
    let entries2 := db.time_entries.map (fun e =>
      if e.id ∈ ids ∧ e.timesheet_id = none then
        { e with timesheet_id := some timesheetId, status := EntryStatus.submitted }
      else e)
    (decide (0 < matched.length), { db with time_entries := entries2 })

/-- Model of `TimesheetModel.removeTimeEntries`: detach the listed entries of this
timesheet (`WHERE id = ANY($1) AND timesheet_id = $2`), resetting them to
draft; the Boolean is `rowCount > 0`. -/
def removeTimeEntries (db : DB) (timesheetId : Nat) (ids : List Nat) : Bool × DB :=
  if ids.isEmpty then (true, db)
  else
    let matched := db.time_entries.filter
      (fun e => decide (e.id ∈ ids ∧ e.timesheet_id = some timesheetId))
    let entries2 := db.time_entries.map (fun e =>
      if e.id ∈ ids ∧ e.timesheet_id = some timesheetId then
        { e with timesheet_id := none, status := EntryStatus.draft }
      else e)
    (decide (0 < matched.length), { db with time_entries := entries2 })

end TimesheetModel

/-! ## C3: approval cascades to the timesheet's time entries -/

/-- **C3.** For an existing timesheet, `updateStatus` with status approved
(resp. rejected) sets every time entry whose `timesheet_id` equals the
timesheet's id to approved (resp. rejected); with draft or submitted it
leaves every time entry untouched; entries of other timesheets are never
touched. -/
theorem claim3_cascade (db : DB) (id : Nat) (status : TsStatus) (approvedById : Nat)
    (notes : Option String) (now : Int) (t : Timesheet)
    (hfound : findTimesheet db id = some t) :
    ((TimesheetModel.updateStatus db id status approvedById notes now).2.time_entries.length
        = db.time_entries.length) ∧
    ∀ i (hi : i < db.time_entries.length)
      (hi2 : i < (TimesheetModel.updateStatus db id status approvedById notes
          now).2.time_entries.length),
      let e := db.time_entries.get ⟨i, hi⟩
      let e2 := (TimesheetModel.updateStatus db id status approvedById notes
          now).2.time_entries.get ⟨i, hi2⟩
      (status = TsStatus.approved → e.timesheet_id = some id →
          e2.status = EntryStatus.approved) ∧
      (status = TsStatus.rejected → e.timesheet_id = some id →
          e2.status = EntryStatus.rejected) ∧
      ((status = TsStatus.draft ∨ status = TsStatus.submitted) → e2 = e) ∧
      (e.timesheet_id ≠ some id → e2 = e) := by
  unfold TimesheetModel.updateStatus
  rw [hfound]
  simp only []
  by_cases hcase : status = TsStatus.approved ∨ status = TsStatus.rejected
  · rw [if_pos hcase]
    refine ⟨by simp, ?_⟩
    intro i hi hi2
    refine ⟨?_, ?_, ?_, ?_⟩
    · intro hap hmem
      simp only [List.get_eq_getElem] at hmem
      simp [List.getElem_map, hmem, hap]
    · intro hrej hmem
      simp only [List.get_eq_getElem] at hmem
      have hne : status ≠ TsStatus.approved := by rw [hrej]; decide
      simp [List.getElem_map, hmem, hrej, hne]
    · rintro (hdr | hsub) <;> subst_vars <;> simp at hcase
    · intro hne
      simp only [List.get_eq_getElem] at hne
      simp [List.getElem_map, hne]
  · rw [if_neg hcase]
    refine ⟨rfl, ?_⟩
    intro i hi hi2
    refine ⟨?_, ?_, ?_, ?_⟩
    · intro hap; exact absurd (Or.inl hap) hcase
    · intro hrej; exact absurd (Or.inr hrej) hcase
    · intro _; rfl
    · intro _; rfl

/-- Witness for C3 at a concrete state: approving timesheet 1 marks its
only entry approved and leaves the unrelated entry alone. -/
theorem claim3_cascade_witness :
    ((TimesheetModel.updateStatus
        { emptyDB with
          timesheets := [{ id := 1, user_id := 2, start_date := 0, end_date := 7
                         , status := TsStatus.submitted, notes := none
                         , approved_by := none, approved_at := none }]
          time_entries :=
            [{ id := 10, user_id := 2, task_id := 1, start_time := 0, end_time := none
             , duration_minutes := some 60, description := none, is_billable := true
             , status := EntryStatus.submitted, timesheet_id := some 1 }] }
        1 TsStatus.approved 9 none 5).2.time_entries.length = 1) ∧
    ((TimesheetModel.updateStatus
        { emptyDB with
          timesheets := [{ id := 1, user_id := 2, start_date := 0, end_date := 7
                         , status := TsStatus.submitted, notes := none
                         , approved_by := none, approved_at := none }]
          time_entries :=
            [{ id := 10, user_id := 2, task_id := 1, start_time := 0, end_time := none
             , duration_minutes := some 60, description := none, is_billable := true
             , status := EntryStatus.submitted, timesheet_id := some 1 }] }
        1 TsStatus.approved 9 none 5).2.time_entries.get
          ⟨0, by decide⟩).status = EntryStatus.approved := by
  have h := claim3_cascade
    { emptyDB with
      timesheets := [{ id := 1, user_id := 2, start_date := 0, end_date := 7
                     , status := TsStatus.submitted, notes := none
                     , approved_by := none, approved_at := none }]
      time_entries :=
        [{ id := 10, user_id := 2, task_id := 1, start_time := 0, end_time := none
         , duration_minutes := some 60, description := none, is_billable := true
         , status := EntryStatus.submitted, timesheet_id := some 1 }] }
    1 TsStatus.approved 9 none 5
    { id := 1, user_id := 2, start_date := 0, end_date := 7
    , status := TsStatus.submitted, notes := none
    , approved_by := none, approved_at := none } (by decide)
  exact ⟨h.1, (h.2 0 (by decide) (by decide)).1 rfl (by decide)⟩

/-! ## C9: attaching and detaching entries keeps one-timesheet membership -/

/-- **C9.** `addTimeEntries` attaches only entries whose `timesheet_id` is
NULL (setting it and status submitted); an entry already attached to any
timesheet is left entirely unchanged, so it is never moved to another
timesheet; `removeTimeEntries` detaches only listed entries attached to the
given timesheet, resetting them to draft, and leaves every other entry
unchanged.  Membership itself is a single nullable column, so an entry
belongs to at most one timesheet in every state. -/
theorem claim9_attach_detach (db : DB) (timesheetId : Nat) (ids : List Nat) :
    ((TimesheetModel.addTimeEntries db timesheetId ids).2.time_entries.length
        = db.time_entries.length) ∧
    ((TimesheetModel.removeTimeEntries db timesheetId ids).2.time_entries.length
        = db.time_entries.length) ∧
    (∀ (e : TimeEntry) (t1 t2 : Nat),
        e.timesheet_id = some t1 → e.timesheet_id = some t2 → t1 = t2) ∧
    ∀ i (hi : i < db.time_entries.length)
      (hiA : i < (TimesheetModel.addTimeEntries db timesheetId
          ids).2.time_entries.length)
      (hiR : i < (TimesheetModel.removeTimeEntries db timesheetId
          ids).2.time_entries.length),
      let e := db.time_entries.get ⟨i, hi⟩
      let eA := (TimesheetModel.addTimeEntries db timesheetId
          ids).2.time_entries.get ⟨i, hiA⟩
      let eR := (TimesheetModel.removeTimeEntries db timesheetId
          ids).2.time_entries.get ⟨i, hiR⟩
      ((∀ t0 : Nat, e.timesheet_id = some t0 → eA = e) ∧
       (e.timesheet_id = none → e.id ∈ ids →
          eA.timesheet_id = some timesheetId ∧ eA.status = EntryStatus.submitted) ∧
       (e.id ∉ ids → eA = e)) ∧
      ((e.timesheet_id = some timesheetId → e.id ∈ ids →
          eR.timesheet_id = none ∧ eR.status = EntryStatus.draft) ∧
       (e.timesheet_id ≠ some timesheetId → eR = e) ∧
       (e.id ∉ ids → eR = e)) := by
  by_cases hemp : ids.isEmpty
  · have hnil : ids = [] := List.isEmpty_iff.mp hemp
    subst hnil
    unfold TimesheetModel.addTimeEntries TimesheetModel.removeTimeEntries
    refine ⟨rfl, rfl, ?_, ?_⟩
    · intro e t1 t2 h1 h2
      rw [h1] at h2
      exact Option.some.inj h2
    · intro i hi hiA hiR
      exact ⟨⟨fun _ _ => rfl, fun _ h => absurd h (List.not_mem_nil _), fun _ => rfl⟩,
        ⟨fun _ h => absurd h (List.not_mem_nil _), fun _ => rfl, fun _ => rfl⟩⟩
  · unfold TimesheetModel.addTimeEntries TimesheetModel.removeTimeEntries
    rw [if_neg hemp, if_neg hemp]
    refine ⟨by simp, by simp, ?_, ?_⟩
    · intro e t1 t2 h1 h2
      rw [h1] at h2
      exact Option.some.inj h2
    · intro i hi hiA hiR
      refine ⟨⟨?_, ?_, ?_⟩, ⟨?_, ?_, ?_⟩⟩
      · intro t0 hatt
        simp only [List.get_eq_getElem] at hatt ⊢
        rw [List.getElem_map]
        rw [if_neg (by rw [hatt]; rintro ⟨-, h⟩; cases h)]
      · intro hnone hmem
        simp only [List.get_eq_getElem] at hnone hmem ⊢
        rw [List.getElem_map]
        rw [if_pos ⟨hmem, hnone⟩]
        exact ⟨rfl, rfl⟩
      · intro hnot
        simp only [List.get_eq_getElem] at hnot ⊢
        rw [List.getElem_map]
        rw [if_neg (by rintro ⟨h, -⟩; exact hnot h)]
      · intro hatt hmem
        simp only [List.get_eq_getElem] at hatt hmem ⊢
        rw [List.getElem_map]
        rw [if_pos ⟨hmem, hatt⟩]
        exact ⟨rfl, rfl⟩
      · intro hne
        simp only [List.get_eq_getElem] at hne ⊢
        rw [List.getElem_map]
        rw [if_neg (by rintro ⟨-, h⟩; exact hne h)]
      · intro hnot
        simp only [List.get_eq_getElem] at hnot ⊢
        rw [List.getElem_map]
        rw [if_neg (by rintro ⟨h, -⟩; exact hnot h)]

/-! ## Timesheet controllers (`timesheet.controller.ts`) -/

/-- The request body `updateTimesheet` destructures (and ignores). -/
structure TimesheetUpdateBody where
  startDate : Option Int
  endDate : Option Int
  notes : Option String
  timeEntryIds : Option (List Nat)
deriving DecidableEq, Repr

namespace TimesheetController

/-- Model of `submitTimesheet` (lines 128-168): parse id, find, owner check, draft
check, then `updateStatus submitted`.  Result: (HTTP status, JSON
timesheet, state). -/
def submitTimesheet (db : DB) (u : User) (idParam : Option Nat)
    (notes : Option String) (now : Int) : Nat × Option Timesheet × DB :=
  match idParam with
  | none => (400, none, db)
  | some tsId =>
      match findTimesheet db tsId with
      | none => (404, none, db)
      | some t =>
          if t.user_id ≠ u.id then (403, none, db)
          else if t.status ≠ TsStatus.draft then (400, none, db)
          else
            match TimesheetModel.updateStatus db tsId TsStatus.submitted u.id notes now with
            | (none, db2) => (404, none, db2)
            | (some t2, db2) => (200, some t2, db2)

/-- Model of `approveTimesheet` (lines 170-199): parse id, admin check, then
directly `updateStatus approved` — the current status is never read. -/
def approveTimesheet (db : DB) (u : User) (idParam : Option Nat)
    (notes : Option String) (now : Int) : Nat × Option Timesheet × DB :=
  match idParam with
  | none => (400, none, db)
  | some tsId =>
      if u.role ≠ Role.admin then (403, none, db)
      else
        match TimesheetModel.updateStatus db tsId TsStatus.approved u.id notes now with
        | (none, db2) => (404, none, db2)
        | (some t2, db2) => (200, some t2, db2)

/-- Model of `rejectTimesheet` (lines 201-235): parse id, admin check, require a
rejection reason, then directly `updateStatus rejected`. -/
def rejectTimesheet (db : DB) (u : User) (idParam : Option Nat)
    (notes : Option String) (now : Int) : Nat × Option Timesheet × DB :=
  match idParam with
  | none => (400, none, db)
  | some tsId =>
      if u.role ≠ Role.admin then (403, none, db)
      else if notes = none ∨ notes = some "" then (400, none, db)
      else
        match TimesheetModel.updateStatus db tsId TsStatus.rejected u.id notes now with
        | (none, db2) => (404, none, db2)
        | (some t2, db2) => (200, some t2, db2)

/-- Model of `updateTimesheet` (lines 87-126): validation, parse id, find, owner
check, draft check — then it answers with the *existing* timesheet and
calls no model update. -/
def updateTimesheet (db : DB) (u : User) (validationOk : Bool) (idParam : Option Nat)
    (body : TimesheetUpdateBody) : Nat × Option Timesheet × DB :=
  if validationOk = false then (400, none, db)
  else
    match idParam with
    | none => (400, none, db)
    | some tsId =>
        match findTimesheet db tsId with
        | none => (404, none, db)
        | some t =>
            if t.user_id ≠ u.id then (403, none, db)
            else if t.status ≠ TsStatus.draft then (400, none, db)
            else (200, some t, db)

end TimesheetController

/-! ## C4: the status lifecycle at the endpoints -/

def c4Ts : Timesheet :=
  { id := 1, user_id := 2, start_date := 0, end_date := 7
  , status := TsStatus.draft, notes := none, approved_by := none, approved_at := none }

def c4Db : DB := { emptyDB with timesheets := [c4Ts] }

def c4Admin : User := { id := 9, role := Role.admin }

/-- **C4, counterexample.** The approve and reject endpoints never read the
current status: on a timesheet that is still draft (never submitted), an
admin's approve answers 200 and the timesheet becomes approved — and
likewise reject — contradicting the claim that approved/rejected is
produced only from submitted. -/
theorem claim4_counterexample :
    (findTimesheet c4Db 1).map Timesheet.status = some TsStatus.draft ∧
    (TimesheetController.approveTimesheet c4Db c4Admin (some 1) none 0).1 = 200 ∧
    ((TimesheetController.approveTimesheet c4Db c4Admin (some 1) none 0).2.1.map
        Timesheet.status = some TsStatus.approved) ∧
    (TimesheetController.rejectTimesheet c4Db c4Admin (some 1) (some "no") 0).1 = 200 ∧
    ((TimesheetController.rejectTimesheet c4Db c4Admin (some 1) (some "no") 0).2.1.map
        Timesheet.status = some TsStatus.rejected) := by
  decide

/-- **C4, amended.** `submitTimesheet` does follow the lifecycle: it moves
an owned timesheet to submitted only from draft and answers 400 (leaving
the state unchanged) from any other status.  The approve and reject
endpoints, however, check only that the requester is an admin (403
otherwise, state unchanged) and that the timesheet exists: they set
approved/rejected from *any* current status, including directly from
draft. -/
theorem claim4_lifecycle (db : DB) (u : User) (tsId : Nat) (notes : Option String)
    (now : Int) (t : Timesheet) :
    (findTimesheet db tsId = some t → t.user_id = u.id → t.status ≠ TsStatus.draft →
        TimesheetController.submitTimesheet db u (some tsId) notes now = (400, none, db)) ∧
    (findTimesheet db tsId = some t → t.user_id = u.id → t.status = TsStatus.draft →
        (TimesheetController.submitTimesheet db u (some tsId) notes now).1 = 200 ∧
        ((TimesheetController.submitTimesheet db u (some tsId) notes now).2.1.map
            Timesheet.status = some TsStatus.submitted)) ∧
    (u.role ≠ Role.admin →
        TimesheetController.approveTimesheet db u (some tsId) notes now = (403, none, db) ∧
        TimesheetController.rejectTimesheet db u (some tsId) notes now = (403, none, db)) ∧
    (u.role = Role.admin → findTimesheet db tsId = some t →
        (TimesheetController.approveTimesheet db u (some tsId) notes now).1 = 200 ∧
        ((TimesheetController.approveTimesheet db u (some tsId) notes now).2.1.map
            Timesheet.status = some TsStatus.approved)) ∧
    (u.role = Role.admin → findTimesheet db tsId = some t →
        notes ≠ none → notes ≠ some "" →
        (TimesheetController.rejectTimesheet db u (some tsId) notes now).1 = 200 ∧
        ((TimesheetController.rejectTimesheet db u (some tsId) notes now).2.1.map
            Timesheet.status = some TsStatus.rejected)) := by
  refine ⟨?_, ?_, ?_, ?_, ?_⟩
  · intro hfind howner hnotdraft
    simp only [TimesheetController.submitTimesheet, hfind]
    rw [if_neg (by rw [howner]; simp), if_pos hnotdraft]
  · intro hfind howner hdraft
    simp only [TimesheetController.submitTimesheet, hfind]
    rw [if_neg (by rw [howner]; simp), if_neg (by rw [hdraft]; simp)]
    simp [TimesheetModel.updateStatus, hfind]
  · intro hnotadmin
    constructor
    · simp only [TimesheetController.approveTimesheet]
      rw [if_pos hnotadmin]
    · simp only [TimesheetController.rejectTimesheet]
      rw [if_pos hnotadmin]
  · intro hadmin hfind
    simp only [TimesheetController.approveTimesheet]
    rw [if_neg (by rw [hadmin]; simp)]
    simp [TimesheetModel.updateStatus, hfind]
  · intro hadmin hfind hn1 hn2
    simp only [TimesheetController.rejectTimesheet]
    rw [if_neg (by rw [hadmin]; simp),
      if_neg (by rintro (h | h) <;> [exact hn1 h; exact hn2 h])]
    simp [TimesheetModel.updateStatus, hfind]

/-! ## C10: updateTimesheet is a no-op on a draft owned timesheet -/

/-- **C10.** For a draft timesheet owned by the requester, `updateTimesheet`
ignores every field of the request body, changes nothing in the database,
and answers 200 with the existing timesheet. -/
theorem claim10_update_timesheet_noop (db : DB) (u : User) (tsId : Nat)
    (body : TimesheetUpdateBody) (t : Timesheet)
    (hfind : findTimesheet db tsId = some t)
    (howner : t.user_id = u.id) (hdraft : t.status = TsStatus.draft) :
    TimesheetController.updateTimesheet db u true (some tsId) body = (200, some t, db) := by
  simp only [TimesheetController.updateTimesheet]
  rw [if_neg (by simp)]
  simp only [hfind]
  rw [if_neg (by rw [howner]; simp), if_neg (by rw [hdraft]; simp)]

/-- Witness for C10: a concrete draft timesheet, a body full of changes,
and the unchanged answer. -/
theorem claim10_witness :
    TimesheetController.updateTimesheet c4Db { id := 2, role := Role.user } true (some 1)
        { startDate := some 100, endDate := some 200, notes := some "new"
        , timeEntryIds := some [5, 6] }
      = (200, some c4Ts, c4Db) :=
  claim10_update_timesheet_noop c4Db { id := 2, role := Role.user } 1
    { startDate := some 100, endDate := some 200, notes := some "new"
    , timeEntryIds := some [5, 6] } c4Ts (by decide) (by decide) (by decide)

/-! ## TimeEntryModel (`time-entry.model.ts`) and its controllers -/

/-- The updatable fields of a time entry (`Partial TimeEntryInput`); a
`none` is an absent field, passed to SQL as NULL and absorbed by
`COALESCE`. -/
structure TimeEntryUpdates where
  startTime : Option Int
  endTime : Option Int
  durationMinutes : Option Int
  description : Option String
  isBillable : Option Bool
  status : Option EntryStatus
deriving DecidableEq, Repr

namespace TimeEntryModel

/-- Model of `SELECT 1 FROM time_entries WHERE id = $1 AND user_id = $2`. -/
def userOwnsEntry (db : DB) (entryId userId : Nat) : Bool :=
  db.time_entries.any (fun e => e.id == entryId && e.user_id == userId)

/-- Model of `TimeEntryModel.update`: `COALESCE` every field, `WHERE id = $7`;
no matching row gives a null result and no change. -/
def update (db : DB) (id : Nat) (upd : TimeEntryUpdates) : Option TimeEntry × DB :=
  match db.time_entries.find? (fun e => e.id == id) with
  | none => (none, db)
  | some e =>
      let e2 : TimeEntry :=
        { e with
          start_time := upd.startTime.getD e.start_time
          end_time := match upd.endTime with | some v => some v | none => e.end_time
          duration_minutes :=
            match upd.durationMinutes with | some v => some v | none => e.duration_minutes
          description := match upd.description with | some v => some v | none => e.description
          is_billable := upd.isBillable.getD e.is_billable
          status := upd.status.getD e.status }
      (some e2,
        { db with time_entries := db.time_entries.map (fun x => if x.id = id then e2 else x) })

/-- Model of `DELETE FROM time_entries WHERE id = $1`; the Boolean is
`rowCount > 0`. -/
def delete (db : DB) (id : Nat) : Bool × DB :=
  let entries2 := db.time_entries.filter (fun e => !(e.id == id))
  (decide (entries2.length < db.time_entries.length), { db with time_entries := entries2 })

end TimeEntryModel

namespace TimeEntryController

/-- Model of `updateTimeEntry` of `time-entry.controller.ts`: validation, parse id,
ownership/role check, status-change permission check, then
`TimeEntryModel.update`. -/
def updateTimeEntry (db : DB) (u : User) (validationOk : Bool) (idParam : Option Nat)
    (body : TimeEntryUpdates) : Nat × DB :=
  if validationOk = false then (400, db)
  else
    match idParam with
    | none => (400, db)
    | some entryId =>
        if TimeEntryModel.userOwnsEntry db entryId u.id = false ∧ u.role ≠ Role.admin then
          (403, db)
        else if body.status ≠ none ∧ body.status ≠ some EntryStatus.draft ∧
            u.role ≠ Role.admin then
          (403, db)
        else
          match TimeEntryModel.update db entryId body with
          | (none, db2) => (404, db2)
          | (some _, db2) => (200, db2)

/-- Model of `deleteTimeEntry` of `time-entry.controller.ts`: parse id,
ownership/role check, then `TimeEntryModel.delete`. -/
def deleteTimeEntry (db : DB) (u : User) (idParam : Option Nat) : Nat × DB :=
  match idParam with
  | none => (400, db)
  | some entryId =>
      if TimeEntryModel.userOwnsEntry db entryId u.id = false ∧ u.role ≠ Role.admin then
        (403, db)
      else
        match TimeEntryModel.delete db entryId with
        | (false, db2) => (404, db2)
        | (true, db2) => (200, db2)

end TimeEntryController

/-! ## C7: a non-owner non-admin can neither update nor delete -/

/-- **C7.** For an existing time entry and a requester who owns no entry of
that id and is not an admin, `updateTimeEntry` answers 403 with the state
untouched (the model update is never reached), and so does
`deleteTimeEntry`. -/
theorem claim7_forbidden_update_delete (db : DB) (u : User) (body : TimeEntryUpdates)
    (eid : Nat) (e : TimeEntry)
    (hmem : e ∈ db.time_entries) (hid : e.id = eid)
    (hnotowner : ∀ e2 ∈ db.time_entries, e2.id = eid → e2.user_id ≠ u.id)
    (hnotadmin : u.role ≠ Role.admin) :
    TimeEntryController.updateTimeEntry db u true (some eid) body = (403, db) ∧
    TimeEntryController.deleteTimeEntry db u (some eid) = (403, db) := by
  have hown : TimeEntryModel.userOwnsEntry db eid u.id = false := by
    rw [Bool.eq_false_iff]
    intro hcontra
    rw [TimeEntryModel.userOwnsEntry, List.any_eq_true] at hcontra
    obtain ⟨x, hx, hpx⟩ := hcontra
    simp only [Bool.and_eq_true, beq_iff_eq] at hpx
    exact hnotowner x hx hpx.1 hpx.2
  constructor
  · simp only [TimeEntryController.updateTimeEntry]
    rw [if_neg (by simp), if_pos ⟨hown, hnotadmin⟩]
  · simp only [TimeEntryController.deleteTimeEntry]
    rw [if_pos ⟨hown, hnotadmin⟩]

/-- Witness for C7: user 3 (role user) may not touch the entry of user 2. -/
theorem claim7_witness :
    TimeEntryController.updateTimeEntry
        { emptyDB with time_entries :=
            [{ id := 1, user_id := 2, task_id := 4, start_time := 0, end_time := none
             , duration_minutes := some 30, description := none, is_billable := true
             , status := EntryStatus.draft, timesheet_id := none }] }
        { id := 3, role := Role.user } true (some 1)
        { startTime := none, endTime := none, durationMinutes := some 999
        , description := none, isBillable := none, status := none }
      = (403, { emptyDB with time_entries :=
            [{ id := 1, user_id := 2, task_id := 4, start_time := 0, end_time := none
             , duration_minutes := some 30, description := none, is_billable := true
             , status := EntryStatus.draft, timesheet_id := none }] }) ∧
    TimeEntryController.deleteTimeEntry
        { emptyDB with time_entries :=
            [{ id := 1, user_id := 2, task_id := 4, start_time := 0, end_time := none
             , duration_minutes := some 30, description := none, is_billable := true
             , status := EntryStatus.draft, timesheet_id := none }] }
        { id := 3, role := Role.user } (some 1)
      = (403, { emptyDB with time_entries :=
            [{ id := 1, user_id := 2, task_id := 4, start_time := 0, end_time := none
             , duration_minutes := some 30, description := none, is_billable := true
             , status := EntryStatus.draft, timesheet_id := none }] }) :=
  claim7_forbidden_update_delete
    { emptyDB with time_entries :=
        [{ id := 1, user_id := 2, task_id := 4, start_time := 0, end_time := none
         , duration_minutes := some 30, description := none, is_billable := true
         , status := EntryStatus.draft, timesheet_id := none }] }
    { id := 3, role := Role.user }
    { startTime := none, endTime := none, durationMinutes := some 999
    , description := none, isBillable := none, status := none }
    1
    { id := 1, user_id := 2, task_id := 4, start_time := 0, end_time := none
    , duration_minutes := some 30, description := none, is_billable := true
    , status := EntryStatus.draft, timesheet_id := none }
    (by decide) (by decide) (by decide) (by decide)

/-! ## C8: calculateBillableHours (`time-entry.model.ts`, lines 258-311) -/

/-- Model of `JOIN tasks t ON te.task_id = t.id JOIN projects p ON t.project_id = p.id`
and the projection of `p.hourly_rate`. -/
def lookupRate (db : DB) (taskId : Nat) : Option ℚ :=
  match db.tasks.find? (fun t => t.id == taskId) with
  | none => none
  | some t =>
      match db.projects.find? (fun p => p.id == t.project_id) with
      | none => none
      | some p => some p.hourly_rate

/-- The optional `te.start_time >= startDate` / `<= endDate` filters. -/
def inRange (startDate endDate : Option Int) (x : Int) : Bool :=
  (match startDate with | some s => decide (s ≤ x) | none => true) &&
  (match endDate with | some e => decide (x ≤ e) | none => true)

/-- The joined, filtered rows of the billable-hours query before grouping:
one `(hourly_rate, duration_minutes)` pair per approved billable entry of
the user whose task and project exist (inner joins); `SUM` treats a NULL
duration as contributing nothing. -/
def billableJoined (db : DB) (userId : Nat) (startDate endDate : Option Int) :
    List (ℚ × Int) :=
  db.time_entries.filterMap (fun e =>
    if e.user_id = userId ∧ e.is_billable = true ∧ e.status = EntryStatus.approved ∧
        inRange startDate endDate e.start_time = true then
      (lookupRate db e.task_id).map (fun r => (r, e.duration_minutes.getD 0))
    else none)

/-- Model of `GROUP BY p.hourly_rate`: one row per distinct rate, in order of first
appearance, carrying `SUM(duration_minutes)` of its group. -/
def groupRates (l : List (ℚ × Int)) : List (ℚ × Int) :=
  match l with
  | [] => []
  | (r, d) :: rest =>
      (r, d + ((rest.filter (fun x => decide (x.1 = r))).map Prod.snd).sum) ::
        groupRates (rest.filter (fun x => !(decide (x.1 = r))))
termination_by l.length
decreasing_by
  simp only [List.length_cons]
  exact Nat.lt_succ_of_le (List.length_filter_le _ _)

/-- Model of `parseFloat(x.toFixed(2))`: round to two decimal places. -/
def toFixed2 (x : ℚ) : ℚ := (round (x * 100) : ℤ) / 100

namespace TimeEntryModel

/-- Model of `TimeEntryModel.calculateBillableHours`: total minutes summed over all
rate groups, but the amount computed from `rows[0].hourly_rate` alone. -/
def calculateBillableHours (db : DB) (userId : Nat) (startDate endDate : Option Int) :
    ℚ × ℚ :=
  match groupRates (billableJoined db userId startDate endDate) with
  | [] => (0, 0)
  | (r0, d0) :: restRows =>
      let totalMinutes : Int := (((r0, d0) :: restRows).map Prod.snd).sum
      (toFixed2 ((totalMinutes : ℚ) / 60), toFixed2 (((totalMinutes : ℚ) / 60) * r0))

end TimeEntryModel

theorem sum_map_filter_add {α : Type} (p : α → Bool) (f : α → Int) (l : List α) :
    ((l.filter p).map f).sum + ((l.filter (fun x => !(p x))).map f).sum
      = (l.map f).sum := by
  induction l with
  | nil => simp
  | cons a rest ih =>
      by_cases h : p a = true
      · rw [List.filter_cons_of_pos h, List.filter_cons_of_neg (by simp [h]),
          List.map_cons, List.sum_cons, List.map_cons, List.sum_cons, ← ih]
        ring
      · have h2 : p a = false := Bool.eq_false_iff.mpr h
        rw [List.filter_cons_of_neg (by simp [h2]), List.filter_cons_of_pos (by simp [h2]),
          List.map_cons, List.sum_cons, List.map_cons, List.sum_cons, ← ih]
        ring

theorem sum_groupRates_aux :
    ∀ (n : Nat) (l : List (ℚ × Int)), l.length ≤ n →
      ((groupRates l).map Prod.snd).sum = (l.map Prod.snd).sum := by
  intro n
  induction n with
  | zero =>
      intro l hl
      have hnil : l = [] := List.eq_nil_of_length_eq_zero (Nat.le_zero.mp hl)
      subst hnil
      simp [groupRates]
  | succ n ih =>
      intro l hl
      cases l with
      | nil => simp [groupRates]
      | cons hd rest =>
          obtain ⟨r, d⟩ := hd
          rw [groupRates]
          simp only [List.map_cons, List.sum_cons]
          have h2 : rest.length ≤ n := by
            simp only [List.length_cons] at hl
            exact Nat.le_of_succ_le_succ hl
          have hlen : (rest.filter (fun x => !(decide (x.1 = r)))).length ≤ n :=
            le_trans (List.length_filter_le _ _) h2
          rw [ih _ hlen, add_assoc,
            sum_map_filter_add (fun x => decide (x.1 = r)) Prod.snd rest]

/-- Regrouping: the per-rate sums add up to the plain sum. -/
theorem sum_groupRates (l : List (ℚ × Int)) :
    ((groupRates l).map Prod.snd).sum = (l.map Prod.snd).sum :=
  sum_groupRates_aux l.length l (le_refl _)

/-- **C8.** When a user's approved billable entries span several projects
with different hourly rates, `calculateBillableHours` reports `totalHours`
as the true sum of minutes over *all* rate groups divided by 60 (rounded to
two decimals) but `billableAmount` as those same total hours multiplied by
the rate of the *first* returned rate group only — the other projects'
rates never enter the amount. -/
theorem claim8_first_rate_only (db : DB) (userId : Nat) (startDate endDate : Option Int)
    (r0 : ℚ) (d0 : Int) (rest : List (ℚ × Int))
    (hjoined : billableJoined db userId startDate endDate = (r0, d0) :: rest)
    (hrates : ∃ x ∈ billableJoined db userId startDate endDate,
        ∃ y ∈ billableJoined db userId startDate endDate, x.1 ≠ y.1) :
    TimeEntryModel.calculateBillableHours db userId startDate endDate
      = (toFixed2
           (((((billableJoined db userId startDate endDate).map Prod.snd).sum : Int) : ℚ)
              / 60),
         toFixed2
           ((((((billableJoined db userId startDate endDate).map Prod.snd).sum : Int) : ℚ)
              / 60) * r0)) := by
  have hsum : ((groupRates ((r0, d0) :: rest)).map Prod.snd).sum
      = (((r0, d0) :: rest).map Prod.snd).sum := sum_groupRates _
  simp only [TimeEntryModel.calculateBillableHours, hjoined]
  rw [groupRates]
  simp only []
  rw [groupRates] at hsum
  simp only [List.map_cons, List.sum_cons] at hsum ⊢
  rw [hsum]

/-- Witness for C8: user 1 logged 60 approved billable minutes on a
50-per-hour project and 30 on a 100-per-hour project; the amount uses only
the first rate. -/
theorem claim8_witness :
    TimeEntryModel.calculateBillableHours
        { emptyDB with
          tasks := [{ id := 1, project_id := 1 }, { id := 2, project_id := 2 }]
          projects := [{ id := 1, client_id := 5, hourly_rate := 50 }
                      , { id := 2, client_id := 5, hourly_rate := 100 }]
          time_entries :=
            [{ id := 1, user_id := 1, task_id := 1, start_time := 0, end_time := none
             , duration_minutes := some 60, description := none, is_billable := true
             , status := EntryStatus.approved, timesheet_id := none }
            ,{ id := 2, user_id := 1, task_id := 2, start_time := 0, end_time := none
             , duration_minutes := some 30, description := none, is_billable := true
             , status := EntryStatus.approved, timesheet_id := none }] }
        1 none none
      = (toFixed2 ((((([((50 : ℚ), (60 : Int)), (100, 30)]).map Prod.snd).sum : Int) : ℚ)
            / 60),
         toFixed2 (((((([((50 : ℚ), (60 : Int)), (100, 30)]).map Prod.snd).sum : Int) : ℚ)
            / 60) * 50)) := by
  have happ := claim8_first_rate_only
    { emptyDB with
      tasks := [{ id := 1, project_id := 1 }, { id := 2, project_id := 2 }]
      projects := [{ id := 1, client_id := 5, hourly_rate := 50 }
                  , { id := 2, client_id := 5, hourly_rate := 100 }]
      time_entries :=
        [{ id := 1, user_id := 1, task_id := 1, start_time := 0, end_time := none
         , duration_minutes := some 60, description := none, is_billable := true
         , status := EntryStatus.approved, timesheet_id := none }
        ,{ id := 2, user_id := 1, task_id := 2, start_time := 0, end_time := none
         , duration_minutes := some 30, description := none, is_billable := true
         , status := EntryStatus.approved, timesheet_id := none }] }
    1 none none 50 60 [(100, 30)] (by decide) (by decide)
  rw [happ]
  rfl

end TaskTimeTracker
